import Mathlib

/-!
Shallow embedding of `keras_contrib/callbacks/warm_restart.py`
(`LearningRateWarmRestarter`), a warm-restart cosine-annealing learning-rate
scheduler, together with proofs of its specified properties.

Modelling choices:
* Python numbers (the scheduler's fields and the epoch argument) are modelled
  as rationals `ℚ`; the learning rate written into the optimizer involves
  `cos` and `π`, so it lives in `ℝ`.
* The optimizer handle is a record whose `lr` field is `Option ℝ`;
  `none` models an optimizer without an `lr` attribute (`hasattr` fails).
* `raise` is modelled by an error component in the result.  Python's
  `t / self.num_restart_epochs` raises `ZeroDivisionError` when the (possibly
  just-updated) `num_restart_epochs` is zero, so `on_epoch_begin` carries an
  explicit error branch for that case; note that when this branch is reached
  the preceding restart mutation leaves the state unchanged
  (`next += 0`, `num = 0 * factor = 0`), so returning the unmodified state is
  faithful to the Python object's state at raise time.
-/

namespace WarmRestart

/-- Errors the Python code can raise: the two `ValueError`s of the source
(`InvalidConfiguration` for `factor < 1` at construction,
`MissingLearningRateAttribute` for a missing `lr` attribute) and Python's
`ZeroDivisionError` from `t / self.num_restart_epochs`. -/
inductive SchedError where
  | invalidConfiguration
  | missingLearningRateAttribute
  | zeroDivisionError
  deriving DecidableEq

/-- The scheduler's fields, exactly those set in `__init__`. -/
structure LearningRateWarmRestarter where
  min_lr : ℚ
  max_lr : ℚ
  num_restart_epochs : ℚ
  factor : ℚ
  next_restart_epochs : ℚ
  deriving DecidableEq

/-- The bound optimizer handle: `lr = none` models an optimizer lacking the
`lr` attribute. -/
structure Optimizer where
  lr : Option ℝ

/-- `__init__`: stores the four arguments, initializes
`next_restart_epochs = 0`, and raises when `factor < 1`. -/
def init (min_lr max_lr num_restart_epochs factor : ℚ) :
    Except SchedError LearningRateWarmRestarter :=
  if factor < 1 then Except.error SchedError.invalidConfiguration
  else Except.ok ⟨min_lr, max_lr, num_restart_epochs, factor, 0⟩

/-- The state-transition part of `on_epoch_begin`: computes
`t = epoch - next_restart_epochs`, performs the restart transition when
`t == num_restart_epochs`, and returns the resulting state together with the
(possibly reset) `t`. -/
def stepState (s : LearningRateWarmRestarter) (epoch : ℚ) :
    LearningRateWarmRestarter × ℚ :=
  let t := epoch - s.next_restart_epochs
  if t = s.num_restart_epochs then
    ({ s with
        next_restart_epochs := s.next_restart_epochs + s.num_restart_epochs,
        num_restart_epochs := s.num_restart_epochs * s.factor }, 0)
  else
    (s, t)

/-- The cosine-annealing formula of the source:
`min_lr + 0.5 * (max_lr - min_lr) * (1 + cos(t / num_restart_epochs * pi))`. -/
noncomputable def new_lr (s : LearningRateWarmRestarter) (t : ℚ) : ℝ :=
  (s.min_lr : ℝ) + 0.5 * ((s.max_lr : ℝ) - (s.min_lr : ℝ)) *
    (1 + Real.cos ((t : ℝ) / (s.num_restart_epochs : ℝ) * Real.pi))

/-- `on_epoch_begin`: checks the `lr` attribute, performs the restart check,
and writes the new learning rate into the optimizer.  Returns the scheduler
state after the call, the optimizer after the call, and the error raised (if
any). -/
noncomputable def on_epoch_begin (s : LearningRateWarmRestarter)
    (opt : Optimizer) (epoch : ℚ) :
    LearningRateWarmRestarter × Optimizer × Option SchedError :=
  if opt.lr = none then
    (s, opt, some SchedError.missingLearningRateAttribute)
  else
    let p := stepState s epoch
    if p.1.num_restart_epochs = 0 then
      (p.1, opt, some SchedError.zeroDivisionError)
    else
      (p.1, ⟨some (new_lr p.1 p.2)⟩, none)

/-- The scheduler state reached after a sequence of `on_epoch_begin` calls,
each with its own optimizer handle and epoch index. -/
noncomputable def runSchedule (s : LearningRateWarmRestarter)
    (calls : List (Optimizer × ℚ)) : LearningRateWarmRestarter :=
  calls.foldl (fun acc c => (on_epoch_begin acc c.1 c.2).1) s

/-! ### Basic lemmas about the embedding -/

lemma on_epoch_begin_of_none (s : LearningRateWarmRestarter) (opt : Optimizer)
    (epoch : ℚ) (h : opt.lr = none) :
    on_epoch_begin s opt epoch =
      (s, opt, some SchedError.missingLearningRateAttribute) := by
  simp [on_epoch_begin, h]

lemma on_epoch_begin_fst_of_some (s : LearningRateWarmRestarter) (l : ℝ)
    (epoch : ℚ) :
    (on_epoch_begin s ⟨some l⟩ epoch).1 = (stepState s epoch).1 := by
  simp only [on_epoch_begin]
  split
  · simp_all
  · split <;> rfl

lemma stepState_of_ne (s : LearningRateWarmRestarter) (epoch : ℚ)
    (h : epoch - s.next_restart_epochs ≠ s.num_restart_epochs) :
    stepState s epoch = (s, epoch - s.next_restart_epochs) := by
  simp [stepState, h]

lemma stepState_of_eq (s : LearningRateWarmRestarter) (epoch : ℚ)
    (h : epoch - s.next_restart_epochs = s.num_restart_epochs) :
    stepState s epoch =
      ({ s with
          next_restart_epochs := s.next_restart_epochs + s.num_restart_epochs,
          num_restart_epochs := s.num_restart_epochs * s.factor }, 0) := by
  simp [stepState, h]

lemma on_epoch_begin_of_some_ne (s : LearningRateWarmRestarter) (l : ℝ)
    (epoch : ℚ) (ht : epoch - s.next_restart_epochs ≠ s.num_restart_epochs)
    (hp : s.num_restart_epochs ≠ 0) :
    on_epoch_begin s ⟨some l⟩ epoch =
      (s, ⟨some (new_lr s (epoch - s.next_restart_epochs))⟩, none) := by
  simp [on_epoch_begin, stepState_of_ne s epoch ht, hp]

lemma on_epoch_begin_of_some_eq (s : LearningRateWarmRestarter) (l : ℝ)
    (epoch : ℚ) (ht : epoch - s.next_restart_epochs = s.num_restart_epochs)
    (hp : s.num_restart_epochs * s.factor ≠ 0) :
    on_epoch_begin s ⟨some l⟩ epoch =
      ({ s with
          next_restart_epochs := s.next_restart_epochs + s.num_restart_epochs,
          num_restart_epochs := s.num_restart_epochs * s.factor },
       ⟨some (new_lr { s with
          next_restart_epochs := s.next_restart_epochs + s.num_restart_epochs,
          num_restart_epochs := s.num_restart_epochs * s.factor } 0)⟩,
       none) := by
  simp [on_epoch_begin, stepState_of_eq s epoch ht, hp]

lemma new_lr_zero (s : LearningRateWarmRestarter) :
    new_lr s 0 = (s.max_lr : ℝ) := by
  simp [new_lr, Real.cos_zero]
  ring

/-! ### C1: restart happens exactly at `t == num_restart_epochs` -/

/-- C1: in `on_epoch_begin` the restart transition
(`next_restart_epochs += num_restart_epochs`;
`num_restart_epochs *= factor`; `t` reset to `0`) happens exactly when
`t = epoch - next_restart_epochs` equals the current period: at exact
equality the transition is performed, at any other `t` — in particular any
`t` strictly greater than the period, as produced by an epoch sequence that
skips the boundary — the state is left unchanged. -/
theorem restart_exactly_at_boundary (s : LearningRateWarmRestarter) (l : ℝ)
    (epoch : ℚ) :
    (epoch - s.next_restart_epochs = s.num_restart_epochs →
      (on_epoch_begin s ⟨some l⟩ epoch).1 =
        { s with
            next_restart_epochs := s.next_restart_epochs + s.num_restart_epochs,
            num_restart_epochs := s.num_restart_epochs * s.factor }) ∧
    (epoch - s.next_restart_epochs ≠ s.num_restart_epochs →
      (on_epoch_begin s ⟨some l⟩ epoch).1 = s) ∧
    (s.num_restart_epochs < epoch - s.next_restart_epochs →
      (on_epoch_begin s ⟨some l⟩ epoch).1 = s) := by
  refine ⟨fun h => ?_, fun h => ?_, fun h => ?_⟩
  · rw [on_epoch_begin_fst_of_some, stepState_of_eq s epoch h]
  · rw [on_epoch_begin_fst_of_some, stepState_of_ne s epoch h]
  · rw [on_epoch_begin_fst_of_some, stepState_of_ne s epoch (ne_of_gt h)]

/-- C1 witness: with `min_lr=0, max_lr=1/10, period=5, factor=2` and
`next_restart_epochs=0`, the call at epoch `5` performs the restart
transition while the call at epoch `7` (where `t = 7 > 5`) leaves the state
unchanged. -/
theorem restart_exactly_at_boundary_witness :
    (on_epoch_begin ⟨0, 1/10, 5, 2, 0⟩ ⟨some 0⟩ 5).1 = ⟨0, 1/10, 10, 2, 5⟩ ∧
    (on_epoch_begin ⟨0, 1/10, 5, 2, 0⟩ ⟨some 0⟩ 7).1 = ⟨0, 1/10, 5, 2, 0⟩ := by
  constructor
  · have h := (restart_exactly_at_boundary ⟨0, 1/10, 5, 2, 0⟩ 0 5).1 (by norm_num)
    rw [h]
    simp only [LearningRateWarmRestarter.mk.injEq]
    norm_num
  · exact (restart_exactly_at_boundary ⟨0, 1/10, 5, 2, 0⟩ 0 7).2.2 (by norm_num)

/-! ### C2: cosine-annealing formula in the first period -/

/-- C2: with `next_restart_epochs = 0` and `0 <= epoch < num_restart_epochs`,
`on_epoch_begin` writes into the optimizer exactly
`min_lr + 0.5 * (max_lr - min_lr) * (1 + cos(epoch / num_restart_epochs * pi))`
(the cosine-annealing formula with `t = epoch` and the unchanged period), and
leaves the scheduler state unchanged. -/
theorem cosine_formula_in_first_period (s : LearningRateWarmRestarter) (l : ℝ)
    (epoch : ℚ) (h0 : s.next_restart_epochs = 0) (h1 : 0 ≤ epoch)
    (h2 : epoch < s.num_restart_epochs) :
    on_epoch_begin s ⟨some l⟩ epoch =
      (s,
       ⟨some ((s.min_lr : ℝ) + 0.5 * ((s.max_lr : ℝ) - (s.min_lr : ℝ)) *
          (1 + Real.cos ((epoch : ℝ) / (s.num_restart_epochs : ℝ) * Real.pi)))⟩,
       none) := by
  have hp : s.num_restart_epochs ≠ 0 := ne_of_gt (lt_of_le_of_lt h1 h2)
  have ht : epoch - s.next_restart_epochs ≠ s.num_restart_epochs := by
    rw [h0, sub_zero]
    exact ne_of_lt h2
  rw [on_epoch_begin_of_some_ne s l epoch ht hp, h0, sub_zero, new_lr]

/-- C2 witness: the spec's concrete scenario at epoch `2`:
`min_lr=0, max_lr=1/10, period=5, factor=2` yields
`0 + 0.5 * (1/10 - 0) * (1 + cos(2/5 * pi))` and no state change. -/
theorem cosine_formula_in_first_period_witness :
    on_epoch_begin ⟨0, 1/10, 5, 2, 0⟩ ⟨some 0⟩ 2 =
      (⟨0, 1/10, 5, 2, 0⟩,
       ⟨some ((((0 : ℚ)) : ℝ) + 0.5 * ((((1/10 : ℚ)) : ℝ) - (((0 : ℚ)) : ℝ)) *
          (1 + Real.cos ((((2 : ℚ)) : ℝ) / (((5 : ℚ)) : ℝ) * Real.pi)))⟩,
       none) :=
  cosine_formula_in_first_period ⟨0, 1/10, 5, 2, 0⟩ 0 2 rfl (by norm_num)
    (by norm_num)

/-! ### C3: the first restart resets the rate to `max_lr` -/

/-- C3: calling `on_epoch_begin` with `epoch` equal to the initial period
(starting from `next_restart_epochs = 0`, with a nonzero period and a factor
at least `1` as enforced at construction) writes exactly `max_lr`, sets
`next_restart_epochs` to the original period and multiplies
`num_restart_epochs` by `factor`. -/
theorem first_restart_writes_max_lr (s : LearningRateWarmRestarter) (l : ℝ)
    (h0 : s.next_restart_epochs = 0) (hp : s.num_restart_epochs ≠ 0)
    (hf : 1 ≤ s.factor) :
    on_epoch_begin s ⟨some l⟩ s.num_restart_epochs =
      ({ s with
          next_restart_epochs := s.num_restart_epochs,
          num_restart_epochs := s.num_restart_epochs * s.factor },
       ⟨some ((s.max_lr : ℝ))⟩, none) := by
  have hf0 : s.factor ≠ 0 := ne_of_gt (lt_of_lt_of_le zero_lt_one hf)
  have ht : s.num_restart_epochs - s.next_restart_epochs =
      s.num_restart_epochs := by
    rw [h0, sub_zero]
  rw [on_epoch_begin_of_some_eq s l _ ht (mul_ne_zero hp hf0), new_lr_zero, h0,
    zero_add]

/-- C3 witness: the spec's concrete scenario at epoch `5`: the restart fires,
`next_restart_epochs` becomes `5`, the period becomes `10`, and the written
rate is `1/10 = max_lr`. -/
theorem first_restart_writes_max_lr_witness :
    on_epoch_begin ⟨0, 1/10, 5, 2, 0⟩ ⟨some 0⟩ 5 =
      (⟨0, 1/10, 10, 2, 5⟩, ⟨some (((1/10 : ℚ)) : ℝ)⟩, none) := by
  have h := first_restart_writes_max_lr ⟨0, 1/10, 5, 2, 0⟩ 0 rfl (by norm_num)
    (by norm_num)
  rw [h]
  norm_num [Prod.ext_iff, LearningRateWarmRestarter.mk.injEq, Optimizer.mk.injEq]

/-! ### C4: construction validates only the factor -/

/-- C4: `init` fails with `invalidConfiguration` exactly when `factor < 1`,
and on a successful construction it just stores the four arguments and
initializes `next_restart_epochs = 0`. -/
theorem init_factor_validation (a b c f : ℚ) :
    (init a b c f = Except.error SchedError.invalidConfiguration ↔ f < 1) ∧
    (1 ≤ f → init a b c f = Except.ok ⟨a, b, c, f, 0⟩) := by
  refine ⟨⟨fun h => ?_, fun h => ?_⟩, fun h => ?_⟩
  · by_contra hf
    simp [init, hf] at h
  · simp [init, h]
  · simp [init, not_lt.mpr h]

/-- C4 witness: construction with `factor = 1/2` fails with
`invalidConfiguration`, while the default configuration
`(0, 1/10, 5, 2)` succeeds with `next_restart_epochs = 0`. -/
theorem init_factor_validation_witness :
    init 0 (1/10) 5 (1/2) = Except.error SchedError.invalidConfiguration ∧
    init 0 (1/10) 5 2 = Except.ok ⟨0, 1/10, 5, 2, 0⟩ :=
  ⟨(init_factor_validation 0 (1/10) 5 (1/2)).1.mpr (by norm_num),
   (init_factor_validation 0 (1/10) 5 2).2 (by norm_num)⟩

/-! ### C5: the missing-lr error -/

lemma on_epoch_begin_err_of_some (s : LearningRateWarmRestarter) (l : ℝ)
    (epoch : ℚ) (hp : s.num_restart_epochs ≠ 0) (hf0 : s.factor ≠ 0) :
    (on_epoch_begin s ⟨some l⟩ epoch).2.2 = none := by
  by_cases ht : epoch - s.next_restart_epochs = s.num_restart_epochs
  · rw [on_epoch_begin_of_some_eq s l epoch ht (mul_ne_zero hp hf0)]
  · rw [on_epoch_begin_of_some_ne s l epoch ht hp]

/-- C5: for a scheduler satisfying the data-model invariants (nonzero period,
factor at least 1 as enforced at construction), `on_epoch_begin` raises
`missingLearningRateAttribute` exactly when the bound optimizer lacks an `lr`
field; the error is produced immediately, on any call (the state and the
optimizer are returned unchanged), and no other error is ever raised. -/
theorem missing_lr_error_characterization (s : LearningRateWarmRestarter)
    (opt : Optimizer) (epoch : ℚ) (hp : s.num_restart_epochs ≠ 0)
    (hf : 1 ≤ s.factor) :
    ((on_epoch_begin s opt epoch).2.2 =
        some SchedError.missingLearningRateAttribute ↔ opt.lr = none) ∧
    (opt.lr = none →
      on_epoch_begin s opt epoch =
        (s, opt, some SchedError.missingLearningRateAttribute)) ∧
    (∀ e, (on_epoch_begin s opt epoch).2.2 = some e →
      e = SchedError.missingLearningRateAttribute) := by
  have hf0 : s.factor ≠ 0 := ne_of_gt (lt_of_lt_of_le zero_lt_one hf)
  obtain ⟨olr⟩ := opt
  cases olr with
  | none =>
    refine ⟨⟨fun _ => rfl, fun _ => ?_⟩, fun _ => ?_, fun e he => ?_⟩
    · rw [on_epoch_begin_of_none s ⟨none⟩ epoch rfl]
    · rw [on_epoch_begin_of_none s ⟨none⟩ epoch rfl]
    · rw [on_epoch_begin_of_none s ⟨none⟩ epoch rfl] at he
      exact (Option.some.inj he).symm
  | some l =>
    have herr := on_epoch_begin_err_of_some s l epoch hp hf0
    refine ⟨⟨fun h => ?_, fun h => ?_⟩, fun h => ?_, fun e he => ?_⟩
    · rw [herr] at h
      exact absurd h (Option.noConfusion)
    · exact absurd h (Option.noConfusion)
    · exact absurd h (Option.noConfusion)
    · rw [herr] at he
      exact absurd he (Option.noConfusion)

/-- C5 witness: with the default configuration and an optimizer without an
`lr` field, the call at epoch `3` raises `missingLearningRateAttribute` and
leaves scheduler and optimizer untouched. -/
theorem missing_lr_error_characterization_witness :
    on_epoch_begin ⟨0, 1/10, 5, 2, 0⟩ ⟨none⟩ 3 =
      (⟨0, 1/10, 5, 2, 0⟩, ⟨none⟩, some SchedError.missingLearningRateAttribute) :=
  (missing_lr_error_characterization ⟨0, 1/10, 5, 2, 0⟩ ⟨none⟩ 3 (by norm_num)
    (by norm_num)).2.1 rfl

/-! ### C6: the rate is non-increasing within a period -/

lemma new_lr_antitone (s : LearningRateWarmRestarter) (t1 t2 : ℚ)
    (hml : s.min_lr ≤ s.max_lr) (hp : 0 < s.num_restart_epochs)
    (h0 : 0 ≤ t1) (h12 : t1 ≤ t2) (h2 : t2 ≤ s.num_restart_epochs) :
    new_lr s t2 ≤ new_lr s t1 := by
  have hpR : (0 : ℝ) < (s.num_restart_epochs : ℝ) := by exact_mod_cast hp
  have h0R : (0 : ℝ) ≤ (t1 : ℝ) := by exact_mod_cast h0
  have h12R : (t1 : ℝ) ≤ (t2 : ℝ) := by exact_mod_cast h12
  have h2R : (t2 : ℝ) ≤ (s.num_restart_epochs : ℝ) := by exact_mod_cast h2
  have hmlR : (s.min_lr : ℝ) ≤ (s.max_lr : ℝ) := by exact_mod_cast hml
  have hθ1 : 0 ≤ (t1 : ℝ) / (s.num_restart_epochs : ℝ) * Real.pi :=
    mul_nonneg (div_nonneg h0R hpR.le) Real.pi_pos.le
  have hθ2 : (t2 : ℝ) / (s.num_restart_epochs : ℝ) * Real.pi ≤ Real.pi := by
    have hle1 : (t2 : ℝ) / (s.num_restart_epochs : ℝ) ≤ 1 :=
      (div_le_one hpR).mpr h2R
    calc (t2 : ℝ) / (s.num_restart_epochs : ℝ) * Real.pi
        ≤ 1 * Real.pi := mul_le_mul_of_nonneg_right hle1 Real.pi_pos.le
      _ = Real.pi := one_mul _
  have hθ12 : (t1 : ℝ) / (s.num_restart_epochs : ℝ) * Real.pi ≤
      (t2 : ℝ) / (s.num_restart_epochs : ℝ) * Real.pi := by gcongr
  have hcos := Real.cos_le_cos_of_nonneg_of_le_pi hθ1 hθ2 hθ12
  unfold new_lr
  nlinarith [hcos, hmlR]

/-- C6: within one period (fixed `num_restart_epochs` and
`next_restart_epochs`, with `min_lr <= max_lr` and a positive period as the
data model requires), the learning rate written by `on_epoch_begin` is
non-increasing in the epoch: for epochs `e1 <= e2` between the period start
and the period end, the rate written at `e2` is at most the rate written at
`e1`. -/
theorem lr_non_increasing_within_period (s : LearningRateWarmRestarter)
    (l1 l2 : ℝ) (e1 e2 : ℚ) (hml : s.min_lr ≤ s.max_lr)
    (hp : 0 < s.num_restart_epochs) (h1 : s.next_restart_epochs ≤ e1)
    (h12 : e1 ≤ e2)
    (h2 : e2 - s.next_restart_epochs < s.num_restart_epochs) (r1 r2 : ℝ)
    (hr1 : (on_epoch_begin s ⟨some l1⟩ e1).2.1.lr = some r1)
    (hr2 : (on_epoch_begin s ⟨some l2⟩ e2).2.1.lr = some r2) :
    r2 ≤ r1 := by
  have ht12 : e1 - s.next_restart_epochs ≤ e2 - s.next_restart_epochs :=
    sub_le_sub_right h12 _
  have ht1lt : e1 - s.next_restart_epochs < s.num_restart_epochs :=
    lt_of_le_of_lt ht12 h2
  rw [on_epoch_begin_of_some_ne s l1 e1 (ne_of_lt ht1lt) (ne_of_gt hp)] at hr1
  rw [on_epoch_begin_of_some_ne s l2 e2 (ne_of_lt h2) (ne_of_gt hp)] at hr2
  have hv1 : new_lr s (e1 - s.next_restart_epochs) = r1 := Option.some.inj hr1
  have hv2 : new_lr s (e2 - s.next_restart_epochs) = r2 := Option.some.inj hr2
  rw [← hv1, ← hv2]
  exact new_lr_antitone s _ _ hml hp (sub_nonneg.mpr h1) ht12 h2.le

/-- C6 witness: in the spec's concrete scenario, the rate written at epoch
`3` is at most the rate written at epoch `2`. -/
theorem lr_non_increasing_within_period_witness :
    new_lr ⟨0, 1/10, 5, 2, 0⟩ 3 ≤ new_lr ⟨0, 1/10, 5, 2, 0⟩ 2 := by
  refine lr_non_increasing_within_period ⟨0, 1/10, 5, 2, 0⟩ 0 0 2 3
    (by norm_num) (by norm_num) (by norm_num) (by norm_num) (by norm_num)
    (new_lr ⟨0, 1/10, 5, 2, 0⟩ 2) (new_lr ⟨0, 1/10, 5, 2, 0⟩ 3) ?_ ?_
  · rw [on_epoch_begin_of_some_ne ⟨0, 1/10, 5, 2, 0⟩ 0 2 (by norm_num)
      (by norm_num)]
    norm_num
  · rw [on_epoch_begin_of_some_ne ⟨0, 1/10, 5, 2, 0⟩ 0 3 (by norm_num)
      (by norm_num)]
    norm_num

/-! ### C7 and C8: lifetime invariants over sequences of calls -/

/-- The spec's data-model invariant: positive period and factor at least 1. -/
def Invariant (s : LearningRateWarmRestarter) : Prop :=
  0 < s.num_restart_epochs ∧ 1 ≤ s.factor

lemma stepState_invariant (s : LearningRateWarmRestarter) (e : ℚ)
    (h : Invariant s) :
    Invariant (stepState s e).1 ∧
      s.next_restart_epochs ≤ (stepState s e).1.next_restart_epochs := by
  obtain ⟨hp, hf⟩ := h
  by_cases ht : e - s.next_restart_epochs = s.num_restart_epochs
  · rw [stepState_of_eq s e ht]
    refine ⟨⟨mul_pos hp (lt_of_lt_of_le zero_lt_one hf), hf⟩, ?_⟩
    dsimp
    linarith
  · rw [stepState_of_ne s e ht]
    exact ⟨⟨hp, hf⟩, le_refl _⟩

lemma on_epoch_begin_invariant (s : LearningRateWarmRestarter)
    (opt : Optimizer) (e : ℚ) (h : Invariant s) :
    Invariant (on_epoch_begin s opt e).1 ∧
      s.next_restart_epochs ≤ (on_epoch_begin s opt e).1.next_restart_epochs := by
  obtain ⟨olr⟩ := opt
  cases olr with
  | none =>
    rw [on_epoch_begin_of_none s ⟨none⟩ e rfl]
    exact ⟨h, le_refl _⟩
  | some l =>
    rw [on_epoch_begin_fst_of_some]
    exact stepState_invariant s e h

lemma runSchedule_nil (s : LearningRateWarmRestarter) :
    runSchedule s [] = s := rfl

lemma runSchedule_cons (s : LearningRateWarmRestarter) (c : Optimizer × ℚ)
    (cs : List (Optimizer × ℚ)) :
    runSchedule s (c :: cs) = runSchedule (on_epoch_begin s c.1 c.2).1 cs := rfl

lemma runSchedule_invariant (calls : List (Optimizer × ℚ)) :
    ∀ s : LearningRateWarmRestarter, Invariant s →
      Invariant (runSchedule s calls) ∧
        s.next_restart_epochs ≤ (runSchedule s calls).next_restart_epochs := by
  induction calls with
  | nil =>
    intro s h
    rw [runSchedule_nil]
    exact ⟨h, le_refl _⟩
  | cons c cs ih =>
    intro s h
    rw [runSchedule_cons]
    have hstep := on_epoch_begin_invariant s c.1 c.2 h
    have htail := ih (on_epoch_begin s c.1 c.2).1 hstep.1
    exact ⟨htail.1, le_trans hstep.2 htail.2⟩

/-- C7: for a scheduler satisfying the data-model invariant (positive period,
factor at least 1 as enforced at construction), `next_restart_epochs` never
decreases: after any sequence of `on_epoch_begin` calls it is at least its
initial value. -/
theorem next_restart_epochs_monotone (s : LearningRateWarmRestarter)
    (calls : List (Optimizer × ℚ)) (hp : 0 < s.num_restart_epochs)
    (hf : 1 ≤ s.factor) :
    s.next_restart_epochs ≤ (runSchedule s calls).next_restart_epochs :=
  (runSchedule_invariant calls s ⟨hp, hf⟩).2

/-- C7 witness: on the spec's concrete scenario, two calls (one of them a
restart, one against an optimizer with no `lr` field) leave
`next_restart_epochs` at least its initial value. -/
theorem next_restart_epochs_monotone_witness :
    (⟨0, 1/10, 5, 2, 0⟩ : LearningRateWarmRestarter).next_restart_epochs ≤
      (runSchedule ⟨0, 1/10, 5, 2, 0⟩
        [(⟨some 0⟩, 5), (⟨none⟩, 7)]).next_restart_epochs :=
  next_restart_epochs_monotone ⟨0, 1/10, 5, 2, 0⟩ [(⟨some 0⟩, 5), (⟨none⟩, 7)]
    (by norm_num) (by norm_num)

/-- C8: for a scheduler with a positive period and factor at least 1 (as
enforced at construction), `num_restart_epochs` stays strictly positive after
every sequence of `on_epoch_begin` calls, so the division
`t / num_restart_epochs` in the learning-rate formula is always defined. -/
theorem num_restart_epochs_stays_positive (s : LearningRateWarmRestarter)
    (calls : List (Optimizer × ℚ)) (hp : 0 < s.num_restart_epochs)
    (hf : 1 ≤ s.factor) :
    0 < (runSchedule s calls).num_restart_epochs :=
  (runSchedule_invariant calls s ⟨hp, hf⟩).1.1

/-- C8 witness: on the spec's concrete scenario, after the calls at epochs
`0`, `2` and `5` (the last one a restart) the period is still positive. -/
theorem num_restart_epochs_stays_positive_witness :
    0 < (runSchedule ⟨0, 1/10, 5, 2, 0⟩
      [(⟨some 0⟩, 0), (⟨some 0⟩, 2), (⟨some 0⟩, 5)]).num_restart_epochs :=
  num_restart_epochs_stays_positive ⟨0, 1/10, 5, 2, 0⟩
    [(⟨some 0⟩, 0), (⟨some 0⟩, 2), (⟨some 0⟩, 5)] (by norm_num) (by norm_num)

/-! ### C9: double calls at the restart boundary -/

/-- C9 counterexample: at the restart boundary of the spec's concrete
scenario (epoch `5`), the first call performs the restart and writes
`1/10 = max_lr`; the immediately repeated call with the same epoch writes the
same learning rate (`1/10`) and returns the same state, so the second call
does not produce a different written learning rate or a different resulting
state. -/
theorem boundary_double_call_counterexample :
    on_epoch_begin ⟨0, 1/10, 5, 2, 0⟩ ⟨some 0⟩ 5 =
      (⟨0, 1/10, 10, 2, 5⟩, ⟨some (((1/10 : ℚ)) : ℝ)⟩, none) ∧
    on_epoch_begin ⟨0, 1/10, 10, 2, 5⟩ ⟨some (((1/10 : ℚ)) : ℝ)⟩ 5 =
      (⟨0, 1/10, 10, 2, 5⟩, ⟨some (((1/10 : ℚ)) : ℝ)⟩, none) := by
  constructor
  · rw [on_epoch_begin_of_some_eq ⟨0, 1/10, 5, 2, 0⟩ 0 5 (by norm_num)
      (by norm_num), new_lr_zero]
    norm_num [Prod.ext_iff, LearningRateWarmRestarter.mk.injEq,
      Optimizer.mk.injEq]
  · rw [on_epoch_begin_of_some_ne ⟨0, 1/10, 10, 2, 5⟩ _ 5 (by norm_num)
      (by norm_num), show (5 : ℚ) - 5 = 0 by norm_num, new_lr_zero]

/-- C9 amended: a repeated `on_epoch_begin` call at the restart boundary is
observably idempotent, not different: for any boundary epoch
`e = next_restart_epochs + num_restart_epochs` (nonzero period, factor at
least 1), the first call performs the restart transition and writes `max_lr`,
and a second call with the same epoch leaves the advanced state unchanged and
writes the same `max_lr`; the calls differ only in that the restart
transition happens during the first one. -/
theorem boundary_double_call_idempotent (s : LearningRateWarmRestarter)
    (l l' : ℝ) (e : ℚ)
    (he : e = s.next_restart_epochs + s.num_restart_epochs)
    (hp : s.num_restart_epochs ≠ 0) (hf : 1 ≤ s.factor) :
    on_epoch_begin ((on_epoch_begin s ⟨some l⟩ e).1) ⟨some l'⟩ e =
      ((on_epoch_begin s ⟨some l⟩ e).1, ⟨some ((s.max_lr : ℝ))⟩, none) ∧
    (on_epoch_begin s ⟨some l⟩ e).2.1 = ⟨some ((s.max_lr : ℝ))⟩ := by
  have hf0 : s.factor ≠ 0 := ne_of_gt (lt_of_lt_of_le zero_lt_one hf)
  have ht : e - s.next_restart_epochs = s.num_restart_epochs := by
    rw [he]
    ring
  rw [on_epoch_begin_of_some_eq s l e ht (mul_ne_zero hp hf0)]
  dsimp
  have ht2 : e - (s.next_restart_epochs + s.num_restart_epochs) ≠
      s.num_restart_epochs * s.factor := by
    rw [he]
    simpa using (mul_ne_zero hp hf0).symm
  constructor
  · rw [on_epoch_begin_of_some_ne _ l' e ht2 (mul_ne_zero hp hf0)]
    dsimp
    rw [show e - (s.next_restart_epochs + s.num_restart_epochs) = 0 by
      rw [he]; ring, new_lr_zero]
  · rw [new_lr_zero]

/-- C9 amended witness: the concrete double call of the spec scenario at
epoch `5`. -/
theorem boundary_double_call_idempotent_witness :
    on_epoch_begin ((on_epoch_begin ⟨0, 1/10, 5, 2, 0⟩ ⟨some 0⟩ 5).1)
        ⟨some 0⟩ 5 =
      ((on_epoch_begin ⟨0, 1/10, 5, 2, 0⟩ ⟨some 0⟩ 5).1,
        ⟨some (((1/10 : ℚ)) : ℝ)⟩, none) ∧
    (on_epoch_begin ⟨0, 1/10, 5, 2, 0⟩ ⟨some 0⟩ 5).2.1 =
      ⟨some (((1/10 : ℚ)) : ℝ)⟩ :=
  boundary_double_call_idempotent ⟨0, 1/10, 5, 2, 0⟩ 0 0 5 (by norm_num)
    (by norm_num) (by norm_num)

/-! ### C10: the attribute check is first and mutates nothing -/

/-- C10: the `lr`-attribute check runs at the top of every `on_epoch_begin`
call, on any scheduler state (not only the first call), and when it fires the
call returns the scheduler state and the optimizer completely unchanged
together with the `missingLearningRateAttribute` error. -/
theorem missing_lr_check_atomic (s : LearningRateWarmRestarter)
    (opt : Optimizer) (epoch : ℚ) (h : opt.lr = none) :
    on_epoch_begin s opt epoch =
      (s, opt, some SchedError.missingLearningRateAttribute) :=
  on_epoch_begin_of_none s opt epoch h

/-- C10 witness: a mid-schedule state (`next_restart_epochs = 5`,
`num_restart_epochs = 10`) with an `lr`-less optimizer at epoch `9`: the call
errors and changes nothing. -/
theorem missing_lr_check_atomic_witness :
    on_epoch_begin ⟨0, 1/10, 10, 2, 5⟩ ⟨none⟩ 9 =
      (⟨0, 1/10, 10, 2, 5⟩, ⟨none⟩,
        some SchedError.missingLearningRateAttribute) :=
  missing_lr_check_atomic ⟨0, 1/10, 10, 2, 5⟩ ⟨none⟩ 9 rfl

end WarmRestart
